import Mathlib

/-
Shallow embedding of src/Devr3/app.py (the expertise-matching glue of the
repository).  Python strings are modelled as lists of characters (so all
definitions evaluate inside the kernel); str.lower() is mapping
Char.toLower over the characters; str.split() with no argument is
splitting on runs of whitespace while discarding empty tokens;
list(set(xs)) is List.dedup (an arbitrary but definite duplicate-free
ordering of the same elements); a Python function that can raise returns
Except, and a value that can be None is an Option.
-/

abbrev PyStr := List Char

/- Python str.split() with no separator: split on maximal whitespace runs,
   never producing empty tokens; the accumulator holds the characters of
   the token currently being read, in reverse. -/
def splitWsAux : List Char → List Char → List (List Char)
  | [], acc => if acc = [] then [] else [acc.reverse]
  | c :: cs, acc =>
    if c.isWhitespace then
      if acc = [] then splitWsAux cs [] else acc.reverse :: splitWsAux cs []
    else splitWsAux cs (c :: acc)

def pySplit (s : PyStr) : List PyStr := splitWsAux s []

/- Python str.lower(). -/
def pyLower (s : PyStr) : PyStr := s.map Char.toLower

/- app.py lines 75-80:
     def extract_expertise_tags(bio):
         if not bio: return []
         words = bio.lower().split()
         tags = [f"#\x7bword\x7d" for word in words if len(word) > 2]
         return tags
   The argument may be None (modelled by none) or a string; `not bio` is
   true for None and for the empty string.  Note: no deduplication. -/
def extract_expertise_tags (bio : Option PyStr) : List PyStr :=
  match bio with
  | none => []
  | some b =>
    if b = [] then []
    else ((pySplit (pyLower b)).filter (fun w => w.length > 2)).map (fun w => '#' :: w)

/- The list built by get_pr_insights (app.py lines 84-86) for string
   arguments: words = (pr_title + " " + pr_body).lower().split(), then
   list(set([f"#\x7bword\x7d" for word in words if len(word) > 2])). -/
def pr_tags (t b : PyStr) : List PyStr :=
  (((pySplit (pyLower (t ++ ' ' :: b))).filter (fun w => w.length > 2)).map
    (fun w => '#' :: w)).dedup

/- app.py lines 84-86.  The arguments are dynamically typed; when either is
   None the concatenation pr_title + " " + pr_body raises TypeError, which
   the function does not catch. -/
def get_pr_insights (pr_title pr_body : Option PyStr) : Except String (List PyStr) :=
  match pr_title, pr_body with
  | some t, some b => Except.ok (pr_tags t b)
  | _, _ => Except.error ("TypeError: can only concatenate str (not NoneType) to str")

/- A GitHub user dict as consumed by prepare_documents: 'login' and 'role'
   are always present (fetch_github_users builds them), while the 'bio' key
   may be missing (bio = none), present but None (some none), or a string
   (some (some s)). -/
structure User where
  login : PyStr
  role : PyStr
  bio : Option (Option PyStr)
deriving DecidableEq

/- user.get('bio', "") — the missing-key default is the empty string. -/
def userBio (u : User) : Option PyStr := u.bio.getD (some [])

/- expertise_tags = extract_expertise_tags(user.get('bio', "")) (line 95). -/
def user_expertise (u : User) : List PyStr := extract_expertise_tags (userBio u)

/- tags = [f"#\x7bname\x7d", f"#\x7brole\x7d"] + expertise_tags (line 96). -/
def user_tags (u : User) : List PyStr :=
  ('#' :: u.login) :: ('#' :: u.role) :: user_expertise u

structure DocMetadata where
  username : PyStr
  role : PyStr
  expertise : List PyStr
deriving DecidableEq

/- A langchain Document as built here: page_content plus the metadata dict
   with keys username, role, expertise. -/
structure Document where
  page_content : PyStr
  metadata : DocMetadata
deriving DecidableEq

/- app.py lines 90-102: one Document appended per user, in input order;
   page_content = " ".join(tags). -/
def prepare_documents (users : List User) : List Document :=
  users.map (fun u =>
    ⟨List.intercalate ([' ']) (user_tags u), ⟨u.login, u.role, user_expertise u⟩⟩)

/- app.py lines 36-42:
     try: return FAISS.from_documents(documents, embeddings)
     except Exception as e: print(...); return None
   FAISS.from_documents is external to this repository, so the underlying
   construction is abstracted by its outcome `build`: the try/except
   returns the built store on success and returns None after logging when
   the construction raises. -/
def create_vector_store {α : Type} (build : Except String α) : Option α :=
  match build with
  | Except.ok vs => some vs
  | Except.error _ => none

/- ------------------------------------------------------------------ -/
/- Helper lemmas -/

lemma mem_tag_pipeline {l : List PyStr} {t : PyStr}
    (h : t ∈ (l.filter (fun w => w.length > 2)).map (fun w => '#' :: w)) :
    t.head? = some '#' ∧ 4 ≤ t.length := by
  rcases List.mem_map.1 h with ⟨w, hw, rfl⟩
  have h2 : 2 < w.length := by simpa using (List.mem_filter.1 hw).2
  refine ⟨rfl, ?_⟩
  simp only [List.length_cons]
  omega

/- ------------------------------------------------------------------ -/
/- Theorems for the claims -/

/-- Claim C5: every tag returned by extract_expertise_tags, and every tag in
a list returned by get_pr_insights, starts with the character '#' and has
total length at least 4 (the '#' plus a surviving token of length > 2). -/
theorem tags_start_hash_len4 :
    (∀ (bio : Option PyStr) (t : PyStr), t ∈ extract_expertise_tags bio →
      t.head? = some '#' ∧ 4 ≤ t.length) ∧
    (∀ (ot ob : Option PyStr) (ts : List PyStr) (t : PyStr),
      get_pr_insights ot ob = Except.ok ts → t ∈ ts →
      t.head? = some '#' ∧ 4 ≤ t.length) := by
  constructor
  · intro bio t ht
    cases bio with
    | none => simp [extract_expertise_tags] at ht
    | some b =>
      by_cases hb : b = []
      · simp [extract_expertise_tags, hb] at ht
      · simp only [extract_expertise_tags, if_neg hb] at ht
        exact mem_tag_pipeline ht
  · intro ot ob ts t hok ht
    cases ot with
    | none => simp [get_pr_insights] at hok
    | some a =>
      cases ob with
      | none => simp [get_pr_insights] at hok
      | some b =>
        simp only [get_pr_insights, Except.ok.injEq] at hok
        subst hok
        exact mem_tag_pipeline (List.mem_dedup.1 ht)

/-- Witness for C5 at concrete inputs: the tag #rust extracted from the bio
"rust", and the tag #fix produced by get_pr_insights on title "fix bug"
and empty body, both start with '#' and have length at least 4. -/
theorem tags_start_hash_len4_witness :
    (('#' :: ("rust".toList)).head? = some '#' ∧ 4 ≤ ('#' :: ("rust".toList)).length) ∧
    (('#' :: ("fix".toList)).head? = some '#' ∧ 4 ≤ ('#' :: ("fix".toList)).length) :=
  ⟨tags_start_hash_len4.1 (some ("rust".toList)) ('#' :: ("rust".toList)) (by decide),
   tags_start_hash_len4.2 (some ("fix bug".toList)) (some [])
     (pr_tags ("fix bug".toList) []) ('#' :: ("fix".toList)) rfl (by decide)⟩

/-- Counterexample to claim C1 as stated: extract_expertise_tags does not
deduplicate — on the bio "rust rust" it returns the tag #rust twice, so its
result is not duplicate-free. -/
theorem extract_not_dedup_cex :
    ¬ (extract_expertise_tags (some ("rust rust".toList))).Nodup := by decide

/-- Claim C1 (amended): get_pr_insights deduplicates its tags (its result
never contains a duplicate), but extract_expertise_tags applies the same
lowercase/split/filter/prefix pipeline without deduplication, so its result
can contain duplicates when a word repeats in the input. -/
theorem pr_insights_nodup :
    (∀ t b : PyStr,
      get_pr_insights (some t) (some b) = Except.ok (pr_tags t b) ∧ (pr_tags t b).Nodup) ∧
    (∃ bio : Option PyStr, ¬ (extract_expertise_tags bio).Nodup) := by
  refine ⟨fun t b => ⟨rfl, List.nodup_dedup _⟩, ⟨some ("java java".toList), by decide⟩⟩

/-- Counterexample to claim C2 as stated: a candidate with empty login does
not make prepare_documents fail — it still yields a document (here with
page_content "# #contributors"). -/
theorem prepare_documents_no_validation_cex :
    prepare_documents [⟨[], ("contributors".toList), none⟩] =
      [⟨'#' :: ' ' :: '#' :: ("contributors".toList),
        ⟨[], ("contributors".toList), []⟩⟩] := by decide

/-- Claim C2 (amended): prepare_documents performs no validation and has no
InvalidCandidate failure: every candidate, including one whose login or
role is the empty string, yields exactly one document. -/
theorem prepare_documents_total (users : List User) :
    (prepare_documents users).length = users.length ∧
    ∀ u : User, prepare_documents [u] =
      [⟨List.intercalate ([' ']) (user_tags u), ⟨u.login, u.role, user_expertise u⟩⟩] := by
  exact ⟨by simp [prepare_documents], fun u => rfl⟩

/-- Counterexample to claim C3 as stated: when the underlying vector-store
build raises, create_vector_store does not propagate the failure — it
returns the sentinel None. -/
theorem create_vector_store_swallows_cex :
    create_vector_store (Except.error ("FAISS raised") : Except String Unit) = none := rfl

/-- Claim C3 (amended): create_vector_store catches every failure of the
underlying build and returns None (a non-error sentinel that hides the
failure), and returns the built store unchanged on success. -/
theorem create_vector_store_none_on_error {α : Type} :
    (∀ e : String, create_vector_store (Except.error e : Except String α) = none) ∧
    (∀ v : α, create_vector_store (Except.ok v) = some v) :=
  ⟨fun _ => rfl, fun _ => rfl⟩

/-- Claim C4: for every candidate, the tag list built for a user contains
the name tag and the role tag and every tag extracted from the bio, and as
a set it equals the union of the two prepended tags with the extracted
tags; prepare_documents joins exactly this list into page_content. -/
theorem profile_tags_superset (u : User) :
    ('#' :: u.login) ∈ user_tags u ∧ ('#' :: u.role) ∈ user_tags u ∧
    (∀ t ∈ user_expertise u, t ∈ user_tags u) ∧
    (user_tags u).toFinset =
      ({('#' :: u.login), ('#' :: u.role)} : Finset PyStr) ∪ (user_expertise u).toFinset ∧
    (prepare_documents [u]).map (fun d => d.page_content) =
      [List.intercalate ([' ']) (user_tags u)] := by
  refine ⟨by simp [user_tags], by simp [user_tags], ?_, ?_, rfl⟩
  · intro t ht
    exact List.mem_cons_of_mem _ (List.mem_cons_of_mem _ ht)
  · ext x
    simp [user_tags, or_assoc]

/-- Witness for C4 at a concrete candidate: the extracted bio tag #rust is
a member of the full tag list of the candidate bob/reviewers/"rust". -/
theorem profile_tags_superset_witness :
    ('#' :: ("rust".toList)) ∈
      user_tags ⟨("bob".toList), ("reviewers".toList), some (some ("rust".toList))⟩ :=
  (profile_tags_superset ⟨("bob".toList), ("reviewers".toList),
    some (some ("rust".toList))⟩).2.2.1 ('#' :: ("rust".toList)) (by decide)

/-- Counterexample to claim C6 as stated: get_pr_insights applied to null
(None) title and body does not return an empty result — the string
concatenation raises a TypeError. -/
theorem get_pr_insights_none_raises_cex :
    get_pr_insights none none =
      Except.error ("TypeError: can only concatenate str (not NoneType) to str") := rfl

/-- Claim C6 (amended): extract_expertise_tags returns the empty list,
without error, on None and on the empty string; get_pr_insights returns an
empty result on empty-string title and body, but raises a TypeError
(uncaught) whenever title or body is None. -/
theorem empty_input_empty_tags :
    extract_expertise_tags none = [] ∧
    extract_expertise_tags (some []) = [] ∧
    get_pr_insights (some []) (some []) = Except.ok [] ∧
    (∀ ob : Option PyStr, get_pr_insights none ob =
      Except.error ("TypeError: can only concatenate str (not NoneType) to str")) ∧
    (∀ ot : Option PyStr, get_pr_insights ot none =
      Except.error ("TypeError: can only concatenate str (not NoneType) to str")) := by
  refine ⟨rfl, rfl, rfl, fun ob => ?_, fun ot => ?_⟩
  · cases ob <;> rfl
  · cases ot <;> rfl

/-- Claim C7: the page_content of every document built by prepare_documents
is exactly its tag list joined by single spaces, in the fixed order name
tag, role tag, then bio tags in order of occurrence — a deterministic
function of the input, hence character-identical across runs. -/
theorem page_content_join (users : List User) :
    (prepare_documents users).map (fun d => d.page_content) =
      users.map (fun u => List.intercalate ([' ']) (user_tags u)) := by
  simp [prepare_documents]

/-- Claim C8: get_pr_insights on string title and body returns exactly the
deduplicated tags of the single concatenated string title ++ " " ++ body,
and as a set this equals what the bio tag-extraction pipeline
(extract_expertise_tags) yields on that concatenated text. -/
theorem pr_insights_concat (t b : PyStr) :
    get_pr_insights (some t) (some b) = Except.ok (pr_tags t b) ∧
    (pr_tags t b).toFinset = (extract_expertise_tags (some (t ++ ' ' :: b))).toFinset := by
  refine ⟨rfl, ?_⟩
  have hne : t ++ ' ' :: b ≠ [] := by simp
  simp only [extract_expertise_tags, if_neg hne, pr_tags]
  ext x
  simp [List.mem_dedup]

/-- Claim C9: prepare_documents yields exactly one document per input user,
in input order (usernames and roles line up positionally), and a user whose
bio is absent, None, or the empty string still yields a document whose tag
list is exactly the name tag followed by the role tag. -/
theorem prepare_documents_shape (users : List User) :
    (prepare_documents users).length = users.length ∧
    (prepare_documents users).map (fun d => d.metadata.username) = users.map User.login ∧
    (prepare_documents users).map (fun d => d.metadata.role) = users.map User.role ∧
    (∀ u : User, (u.bio = none ∨ u.bio = some none ∨ u.bio = some (some [])) →
      user_tags u = [('#' :: u.login), ('#' :: u.role)]) := by
  refine ⟨by simp [prepare_documents], by simp [prepare_documents],
    by simp [prepare_documents], ?_⟩
  intro u hu
  rcases hu with h | h | h <;>
    simp [user_tags, user_expertise, userBio, h, extract_expertise_tags]

/-- Witness for C9 at a concrete user with a missing bio: the tag list is
exactly the name tag and the role tag. -/
theorem prepare_documents_shape_witness :
    user_tags ⟨("al".toList), ("reviewers".toList), none⟩ =
      [('#' :: ("al".toList)), ('#' :: ("reviewers".toList))] :=
  (prepare_documents_shape []).2.2.2 ⟨("al".toList), ("reviewers".toList), none⟩ (Or.inl rfl)

/-- Counterexample to claim C10 as stated: when the bio contains the login
as a word, the name tag is not excluded from the metadata expertise list —
for login "alice" with bio "alice", expertise is exactly [#alice]. -/
theorem expertise_contains_name_tag_cex :
    (prepare_documents [⟨("alice".toList), ("contributors".toList),
        some (some ("alice".toList))⟩]).map (fun d => d.metadata.expertise) =
      [[('#' :: ("alice".toList))]] := by decide

/-- Claim C10 (amended): the metadata of every built document stores exactly
username = login, role = role and expertise = extract_expertise_tags(bio);
the name and role tags are prepended to the page_content tags only and are
never appended to expertise by prepare_documents (though an equal tag can
still occur in expertise when the bio contains that word). -/
theorem metadata_fields (u : User) :
    (prepare_documents [u]).map (fun d => d.metadata) =
      [⟨u.login, u.role, user_expertise u⟩] ∧
    (prepare_documents [u]).map (fun d => d.page_content) =
      [List.intercalate ([' ']) (('#' :: u.login) :: ('#' :: u.role) :: user_expertise u)] :=
  ⟨rfl, rfl⟩
